import Mathlib

/-!
Shallow embedding of the terraform-provider-standesamt naming core:
the Terraform framework value model, the hash generator, the name
builder, the validators, and the location-source cache, translated from
the Go sources, together with theorems settling the specification
claims.
-/

namespace Standesamt

/-- Model of a Terraform framework string value (Go `types.String`):
null, unknown, or a known string. The Go zero value is the null state. -/
inductive TFString where
  | null
  | unknown
  | value (s : String)
deriving DecidableEq, Repr

/-- Translation of Go `types.String.ValueString()`: the known value, or the
empty string for null and unknown. -/
def TFString.valueString : TFString → String
  | .value s => s
  | _ => ""

/-- Translation of Go `types.String.IsNull()`. -/
def TFString.isNull : TFString → Bool
  | .null => true
  | _ => false

/-- Translation of Go `types.String.IsUnknown()`. -/
def TFString.isUnknown : TFString → Bool
  | .unknown => true
  | _ => false

/-- Model of the Go `types.String.String()` rendering: `<null>`,
`<unknown>`, or the value wrapped in double quotes (Go uses `%q`; the
escaping of exotic characters inside the value is not modelled). -/
def TFString.stringRepr : TFString → String
  | .null => "<null>"
  | .unknown => "<unknown>"
  | .value s => "\"" ++ s ++ "\""

/-- Model of a Terraform framework boolean value (Go `types.Bool`). -/
inductive TFBool where
  | null
  | unknown
  | value (b : Bool)
deriving DecidableEq, Repr

/-- Translation of Go `types.Bool.ValueBool()`: false for null and unknown. -/
def TFBool.valueBool : TFBool → Bool
  | .value b => b
  | _ => false

/-- Model of a Terraform framework integer value (Go `types.Int32` and
`types.Int64`, both carried as mathematical integers here; no claim
exercises integer overflow). -/
inductive TFInt where
  | null
  | unknown
  | value (i : Int)
deriving DecidableEq, Repr

/-- Translation of Go `ValueInt32()` / `ValueInt64()`: zero for null and
unknown. -/
def TFInt.valueInt : TFInt → Int
  | .value i => i
  | _ => 0

/-- Translation of Go `types.Int32.IsNull()`. -/
def TFInt.isNull : TFInt → Bool
  | .null => true
  | _ => false

/-- Model of a Terraform framework list of strings (Go `types.List` whose
elements are `types.String`, the only element type the naming core uses). -/
inductive TFList where
  | null
  | unknown
  | value (elems : List TFString)
deriving DecidableEq, Repr

/-- Translation of Go `types.List.Elements()`: the element slice, nil (empty)
for null and unknown lists. -/
def TFList.elements : TFList → List TFString
  | .value es => es
  | _ => []

/-- Translation of Go `types.ListValueFrom(ctx, types.StringType, ss)` on a
string slice: a known list of known strings. -/
def listValueFrom (ss : List String) : TFList :=
  .value (ss.map TFString.value)

/-- Translation of Go `strings.Trim(s, cutset)` for a one-character cutset:
removes all leading and trailing occurrences of the character. -/
def stringsTrim (s : String) (c : Char) : String :=
  String.mk (((s.toList.dropWhile (· == c)).reverse.dropWhile (· == c)).reverse)

/-- Translation of `tools.GetBaseString`: empty for unknown and null values,
otherwise the value with surrounding double quotes trimmed. -/
def GetBaseString (s : TFString) : String :=
  if s.isUnknown then ""
  else if s.isNull then ""
  else stringsTrim s.valueString '"'

/-- Translation of Go `strings.Contains(s, pat)`, via prefix search at every
start position. -/
def stringsContains (s pat : String) : Bool :=
  (List.range (s.toList.length + 1)).any
    (fun i => pat.toList.isPrefixOf (s.toList.drop i))

/-- Translation of Go `strings.Join(elems, sep)`. -/
def stringsJoin (elems : List String) (sep : String) : String :=
  match elems with
  | [] => ""
  | x :: xs => xs.foldl (fun acc y => acc ++ sep ++ y) x

/-- Translation of the provider `toLower` helper: null and unknown values are
returned unchanged, otherwise the value is folded to lowercase
(Go `strings.ToLower`; the inputs of interest are ASCII). -/
def toLower (s : TFString) : TFString :=
  if s.isNull || s.isUnknown then s
  else .value s.valueString.toLower

/-- Model of a compiled Go regular expression (RE2) over the syntax subset
used by the naming schemas: literals, the dot, character classes with
ranges and negation, the `^` and `$` anchors, grouping, alternation, and
the `*`, `+`, `?` and counted repetition operators (counted repetition is
expanded at compile time). -/
inductive Rex where
  | eps
  | lit (c : Char)
  | dot
  | cls (neg : Bool) (ranges : List (Char × Char))
  | bos
  | eos
  | seq (a b : Rex)
  | alt (a b : Rex)
  | star (a : Rex)
deriving DecidableEq, Repr

/-- Structural size of a regex, used to budget the matching fuel. -/
def rexSize : Rex → Nat
  | .seq a b => rexSize a + rexSize b + 1
  | .alt a b => rexSize a + rexSize b + 1
  | .star a => rexSize a + 1
  | _ => 1

/-- Character-class membership test: whether `c` falls in one of the ranges,
inverted for a negated class. -/
def classMatch (neg : Bool) (ranges : List (Char × Char)) (c : Char) : Bool :=
  let inR := ranges.any (fun p => decide (p.1 ≤ c) && decide (c ≤ p.2))
  if neg then !inR else inR

/-- Matching engine: the list of possible remainders after the regex consumed
a prefix of `cs`; `bost` records whether the current position is the start
of the subject string (for the `^` anchor). Star iterations must consume at
least one character, which preserves the matched language. -/
def runRex : Nat → Rex → List Char → Bool → List (List Char)
  | 0, _, _, _ => []
  | fuel + 1, r, cs, bost =>
    match r with
    | .eps => [cs]
    | .lit c =>
      match cs with
      | [] => []
      | d :: rest => if d == c then [rest] else []
    | .dot =>
      match cs with
      | [] => []
      | d :: rest => if d == '\n' then [] else [rest]
    | .cls neg rs =>
      match cs with
      | [] => []
      | d :: rest => if classMatch neg rs d then [rest] else []
    | .bos => if bost then [cs] else []
    | .eos => if cs.isEmpty then [cs] else []
    | .seq a b =>
      (runRex fuel a cs bost).flatMap
        (fun rest => runRex fuel b rest (bost && (rest.length == cs.length)))
    | .alt a b => runRex fuel a cs bost ++ runRex fuel b cs bost
    | .star a =>
      cs :: (runRex fuel a cs bost).flatMap
        (fun rest =>
          if rest.length < cs.length then runRex fuel (.star a) rest false
          else [])

/-- Model of Go `(*regexp.Regexp).MatchString`: whether the subject contains
a match of the regex anywhere (the schema regexes carry explicit `^`/`$`
anchors when a full match is intended). -/
def rexMatchString (r : Rex) (s : String) : Bool :=
  let cs := s.toList
  let fuel := (rexSize r + 2) * (cs.length + 2)
  (List.range (cs.length + 1)).any
    (fun i => !(runRex fuel r (cs.drop i) (i == 0)).isEmpty)

/-- Repetition of a regex exactly `n` times, used to expand counted
repetition. -/
def rexPow (a : Rex) : Nat → Rex
  | 0 => .eps
  | n + 1 => .seq a (rexPow a n)

/-- Up to `n` further copies of `a`, used to expand `{m,n}` repetition. -/
def rexOptPow (a : Rex) : Nat → Rex
  | 0 => .eps
  | n + 1 => .alt (.seq a (rexOptPow a n)) .eps

/-- Parser state helpers: read a decimal number from the character list. -/
def parseDigits (cs : List Char) : Option (Nat × List Char) :=
  let ds := cs.takeWhile (fun c => c.isDigit)
  if ds.isEmpty then none
  else some (ds.foldl (fun acc c => acc * 10 + (c.toNat - 48)) 0, cs.dropWhile (fun c => c.isDigit))

/-- Parse one item of a character class: a literal (possibly escaped)
character or a range. -/
def parseClassItem (cs : List Char) : Option ((Char × Char) × List Char) :=
  match cs with
  | '\\' :: c :: rest =>
    if c.isAlphanum then none
    else
      match rest with
      | '-' :: e :: rest2 => if e == ']' then some ((c, c), '-' :: e :: rest2) else some ((c, e), rest2)
      | _ => some ((c, c), rest)
  | c :: '-' :: e :: rest =>
    if c == ']' then none
    else if e == ']' then some ((c, c), '-' :: e :: rest)
    else some ((c, e), rest)
  | c :: rest => if c == ']' then none else some ((c, c), rest)
  | [] => none

/-- Parse the items of a character class up to the closing bracket. -/
def parseClassItems (fuel : Nat) (cs : List Char) (acc : List (Char × Char)) :
    Option (List (Char × Char) × List Char) :=
  match fuel with
  | 0 => none
  | fuel + 1 =>
    match cs with
    | ']' :: rest => if acc.isEmpty then none else some (acc.reverse, rest)
    | _ =>
      match parseClassItem cs with
      | none => none
      | some (item, rest) => parseClassItems fuel rest (item :: acc)

mutual

/-- Parse an alternation: sequences separated by `|`. -/
def parseAlt (fuel : Nat) (cs : List Char) : Option (Rex × List Char) :=
  match fuel with
  | 0 => none
  | fuel + 1 =>
    match parseSeq fuel cs with
    | none => none
    | some (a, rest) =>
      match rest with
      | '|' :: rest2 =>
        match parseAlt fuel rest2 with
        | none => none
        | some (b, rest3) => some (.alt a b, rest3)
      | _ => some (a, rest)

/-- Parse a sequence of repeated atoms, stopping at `|`, `)` or the end. -/
def parseSeq (fuel : Nat) (cs : List Char) : Option (Rex × List Char) :=
  match fuel with
  | 0 => none
  | fuel + 1 =>
    match cs with
    | [] => some (.eps, [])
    | '|' :: _ => some (.eps, cs)
    | ')' :: _ => some (.eps, cs)
    | _ =>
      match parseRepeat fuel cs with
      | none => none
      | some (a, rest) =>
        match parseSeq fuel rest with
        | none => none
        | some (b, rest2) => some (.seq a b, rest2)

/-- Parse an atom with its postfix repetition operators. -/
def parseRepeat (fuel : Nat) (cs : List Char) : Option (Rex × List Char) :=
  match fuel with
  | 0 => none
  | fuel + 1 =>
    match parseAtom fuel cs with
    | none => none
    | some (a, rest) => parsePostfixOps fuel a rest

/-- Apply any postfix `*`, `+`, `?` or `{m,n}` operators to a parsed atom. -/
def parsePostfixOps (fuel : Nat) (a : Rex) (cs : List Char) : Option (Rex × List Char) :=
  match fuel with
  | 0 => none
  | fuel + 1 =>
    match cs with
    | '*' :: rest => parsePostfixOps fuel (.star a) rest
    | '+' :: rest => parsePostfixOps fuel (.seq a (.star a)) rest
    | '?' :: rest => parsePostfixOps fuel (.alt a .eps) rest
    | '{' :: rest =>
      match parseDigits rest with
      | none => some (a, cs)
      | some (m, rest2) =>
        match rest2 with
        | '}' :: rest3 =>
          if m ≤ 1000 then parsePostfixOps fuel (rexPow a m) rest3 else none
        | ',' :: '}' :: rest3 =>
          if m ≤ 1000 then parsePostfixOps fuel (.seq (rexPow a m) (.star a)) rest3 else none
        | ',' :: rest3 =>
          match parseDigits rest3 with
          | none => some (a, cs)
          | some (n, rest4) =>
            match rest4 with
            | '}' :: rest5 =>
              if m ≤ n ∧ n ≤ 1000 then
                parsePostfixOps fuel (.seq (rexPow a m) (rexOptPow a (n - m))) rest5
              else none
            | _ => some (a, cs)
        | _ => some (a, cs)
    | _ => some (a, cs)

/-- Parse a single atom: a group, a class, an anchor, the dot, an escaped
character, or a plain literal. Repetition operators and a stray closing
brace are rejected here, as Go rejects them. -/
def parseAtom (fuel : Nat) (cs : List Char) : Option (Rex × List Char) :=
  match fuel with
  | 0 => none
  | fuel + 1 =>
    match cs with
    | [] => none
    | '(' :: rest =>
      match parseAlt fuel rest with
      | none => none
      | some (a, rest2) =>
        match rest2 with
        | ')' :: rest3 => some (a, rest3)
        | _ => none
    | '[' :: '^' :: rest =>
      match parseClassItems fuel rest [] with
      | none => none
      | some (items, rest2) => some (.cls true items, rest2)
    | '[' :: rest =>
      match parseClassItems fuel rest [] with
      | none => none
      | some (items, rest2) => some (.cls false items, rest2)
    | '^' :: rest => some (.bos, rest)
    | '$' :: rest => some (.eos, rest)
    | '.' :: rest => some (.dot, rest)
    | '\\' :: c :: rest => if c.isAlphanum then none else some (.lit c, rest)
    | '\\' :: [] => none
    | '*' :: _ => none
    | '+' :: _ => none
    | '?' :: _ => none
    | c :: rest => some (.lit c, rest)

end

/-- Model of Go `regexp.Compile` over the supported syntax subset: `none`
models a compilation error (on which `regexp.MustCompile` panics). -/
def compileRegex (pattern : String) : Option Rex :=
  let cs := pattern.toList
  match parseAlt (cs.length * 4 + 8) cs with
  | none => none
  | some (r, rest) => if rest.isEmpty then some r else none

/-- Model of one Go `math/rand` generator instance as produced by
`rand.New(rand.NewSource(seed))`: the library guarantees a value stream
that is a pure function of the seed. The state is the seed plus the
number of values already drawn; the concrete mixing function below
stands in for the library PRNG, which lives outside this repository. -/
structure Rand where
  seed : Int
  pos : Nat
deriving DecidableEq, Repr

/-- Stand-in for the deterministic value stream of a seeded `math/rand`
generator: a pure mixing function of the seed and the draw index. -/
def randValue (seed : Int) (pos : Nat) : Nat :=
  ((seed * 6364136223846793005 + (pos : Int) * 1442695040888963407
      + 1442695040888963407) % (2 ^ 64 : Int)).toNat

/-- Translation of Go `rand.New(rand.NewSource(seed))`: a fresh generator
positioned at the start of the seed-determined stream. -/
def mkRand (seed : Int) : Rand :=
  { seed := seed, pos := 0 }

/-- Translation of Go `(*rand.Rand).Intn(n)`: the next stream value reduced
into `[0, n)`, advancing the generator. -/
def Rand.intn (r : Rand) (n : Nat) : Nat × Rand :=
  (randValue r.seed r.pos % n, { seed := r.seed, pos := r.pos + 1 })

/-- Translation of the `charset` constant of the random package. -/
def charset : String := "abcdefghijklmnopqrstuvwxyz"

/-- Loop body of `random.StringWithCharset`: draws `n` characters from the
charset at generator-chosen indices, threading the generator state. -/
def buildChars (g : Rand) (cs : List Char) : Nat → List Char × Rand
  | 0 => ([], g)
  | n + 1 =>
    let p := g.intn cs.length
    let rest := buildChars p.2 cs n
    (cs.getD p.1 'A' :: rest.1, rest.2)

/-- Translation of `random.StringWithCharset(length, charset)`: builds a
string of `length` characters drawn from the charset using the global
seeded generator, which is passed (and returned) explicitly here. -/
def StringWithCharset (g : Rand) (length : Nat) (cs : String) : String × Rand :=
  let r := buildChars g cs.toList length
  (String.mk r.1, r.2)

/-- Translation of `random.Hash(length, seed)`: overwrites the global
generator with a fresh one built from the seed, then draws `length`
characters from the lowercase charset. The incoming global generator
state `g` is therefore ignored. -/
def Hash (g : Rand) (length : Nat) (seed : Int) : String × Rand :=
  let _ := g
  let g1 := mkRand seed
  StringWithCharset g1 length charset

/-- Translation of `schema.DefaultNamePrecedence`. -/
def DefaultNamePrecedence : List String :=
  ["abbreviation", "prefixes", "name", "location", "environment", "hash", "suffixes"]

/-- Translation of the nested `schema.Configuration` policy struct. -/
structure Configuration where
  UseEnvironment : TFBool
  UseLowerCase : TFBool
  UseSeparator : TFBool
  DenyDoubleHyphens : TFBool
  NamePrecedence : TFList
  HashLength : TFInt
deriving DecidableEq, Repr

/-- Translation of `schema.NamingSchema`. -/
structure NamingSchema where
  ResourceType : TFString
  Abbreviation : TFString
  MinLength : TFInt
  MaxLength : TFInt
  ValidationRegex : TFString
  Configuration : Configuration
deriving DecidableEq, Repr

/-- Translation of the provider `configurationModel` (the base
configuration handed to the builder). -/
structure configurationModel where
  Convention : TFString
  Environment : TFString
  Separator : TFString
  RandomSeed : TFInt
  HashLength : TFInt
  Lowercase : TFBool
  Prefixes : TFList
  Suffixes : TFList
  Location : TFString
deriving DecidableEq, Repr

/-- Translation of the provider `configurationsModel`; the Go string maps
for locations and schemas are modelled as association lists in iteration
order. -/
structure configurationsModel where
  Configuration : configurationModel
  Locations : List (String × TFString)
  Schema : List (String × NamingSchema)
deriving DecidableEq, Repr

/-- Translation of `schema.BuildNameSettingsModel` (per-call overrides;
Go zero values model absent fields). The `Lowercase` boolean is read by
`applyLowercase` in the builder and set by the test configurations but is
absent from the captured `schema.go` snapshot, so that one field is
modelled from its callers. -/
structure BuildNameSettingsModel where
  Convention : String
  Environment : String
  Prefixes : List String
  Suffixes : List String
  NamePrecedence : List String
  HashLength : Int
  RandomSeed : Int
  Separator : String
  Location : String
  Lowercase : Bool
deriving DecidableEq, Repr

/-- The Go zero value of `BuildNameSettingsModel` (no overrides set). -/
def BuildNameSettingsModel.empty : BuildNameSettingsModel :=
  { Convention := "", Environment := "", Prefixes := [], Suffixes := [],
    NamePrecedence := [], HashLength := 0, RandomSeed := 0, Separator := "",
    Location := "", Lowercase := false }

/-- Lookup in an association-list model of a Go string map. -/
def lookupAssoc {α : Type} (l : List (String × α)) (k : String) : Option α :=
  (l.find? (fun p => p.1 == k)).map (fun p => p.2)

/-- Translation of `buildNameResultModel.SetConvention`: the override wins
when non-empty, otherwise the base configuration convention is used. -/
def SetConvention (override : BuildNameSettingsModel) (model : configurationsModel) : TFString :=
  if override.Convention ≠ "" then .value override.Convention
  else model.Configuration.Convention

/-- Translation of `nameBuilder.resolveLocation`: the override location wins
when non-empty, else the non-null base location; a non-empty resolved
location is looked up in the locations map, a missing entry appending the
literal argument error. The first component is the resolved abbreviation
value, the second the appended errors. -/
def resolveLocation (settings : BuildNameSettingsModel) (model : configurationsModel) :
    TFString × List String :=
  let location :=
    if settings.Location ≠ "" then settings.Location
    else if !model.Configuration.Location.isNull then model.Configuration.Location.valueString
    else ""
  if location ≠ "" then
    match lookupAssoc model.Locations location with
    | some v => (v, [])
    | none => (.null, ["location not found in provided locations map"])
  else (.null, [])

/-- Translation of `nameBuilder.resolveEnvironment`. -/
def resolveEnvironment (settings : BuildNameSettingsModel) (model : configurationsModel)
    (typeSchema : NamingSchema) : TFString :=
  if settings.Environment ≠ "" then .value settings.Environment
  else if typeSchema.Configuration.UseEnvironment.valueBool then model.Configuration.Environment
  else .value ""

/-- Translation of `nameBuilder.resolveSeparator`. -/
def resolveSeparator (settings : BuildNameSettingsModel) (model : configurationsModel)
    (typeSchema : NamingSchema) : TFString :=
  if settings.Separator ≠ "" then .value settings.Separator
  else if typeSchema.Configuration.UseSeparator.valueBool then model.Configuration.Separator
  else .value ""

/-- Translation of `nameBuilder.resolveNamePrecedence`: the fixed default
list, replaced wholesale by a non-empty schema list, replaced wholesale
again by a non-empty override list. -/
def resolveNamePrecedence (settings : BuildNameSettingsModel) (typeSchema : NamingSchema) : TFList :=
  let base := listValueFrom DefaultNamePrecedence
  let withSchema :=
    if (typeSchema.Configuration.NamePrecedence.elements).length > 0 then
      typeSchema.Configuration.NamePrecedence
    else base
  if settings.NamePrecedence.length > 0 then listValueFrom settings.NamePrecedence
  else withSchema

/-- Translation of `nameBuilder.resolvePrefixes`. -/
def resolvePrefixes (settings : BuildNameSettingsModel) (model : configurationsModel) : TFList :=
  if settings.Prefixes.length == 0 then model.Configuration.Prefixes
  else listValueFrom settings.Prefixes

/-- Translation of `nameBuilder.resolveSuffixes`. -/
def resolveSuffixes (settings : BuildNameSettingsModel) (model : configurationsModel) : TFList :=
  if settings.Suffixes.length == 0 then model.Configuration.Suffixes
  else listValueFrom settings.Suffixes

/-- Translation of `nameBuilder.resolveHashLength`. -/
def resolveHashLength (settings : BuildNameSettingsModel) (model : configurationsModel)
    (typeSchema : NamingSchema) : TFInt :=
  if settings.HashLength > 0 then .value settings.HashLength
  else if model.Configuration.HashLength.valueInt > 0 then model.Configuration.HashLength
  else typeSchema.Configuration.HashLength

/-- Translation of `nameBuilder.resolveRandomSeed`. -/
def resolveRandomSeed (settings : BuildNameSettingsModel) (model : configurationsModel) : TFInt :=
  if settings.RandomSeed > 0 then .value settings.RandomSeed
  else model.Configuration.RandomSeed

/-- The resolved fields consumed by `buildNameComponents` (the fields of
`buildNameResultModel` that the component loop reads). -/
structure buildNameResultModel where
  Environment : TFString
  Separator : TFString
  HashLength : TFInt
  RandomSeed : TFInt
  Prefixes : TFList
  Suffixes : TFList
  NamePrecedence : TFList
  Location : TFString
deriving DecidableEq, Repr

/-- One iteration of the `buildNameComponents` switch: the components the
given precedence token appends, plus the threaded global generator state
(only the hash token draws from it). The token, like the prefix and
suffix entries, is read via `String()` and trimmed of quotes, and the
abbreviation and name guards test the length of the quoted `String()`
rendering, exactly as the Go code does. -/
def componentsForToken (g : Rand) (typeSchema : NamingSchema) (r : buildNameResultModel)
    (name : TFString) (tok : TFString) : List String × Rand :=
  match stringsTrim tok.stringRepr '"' with
  | "abbreviation" =>
    (if typeSchema.Abbreviation.stringRepr.length > 0 then [GetBaseString typeSchema.Abbreviation] else [], g)
  | "prefixes" =>
    ((r.Prefixes.elements).map (fun e => stringsTrim e.stringRepr '"'), g)
  | "suffixes" =>
    ((r.Suffixes.elements).map (fun e => stringsTrim e.stringRepr '"'), g)
  | "name" =>
    (if name.stringRepr.length > 0 then [GetBaseString name] else [], g)
  | "environment" =>
    (if r.Environment.valueString.length > 0 then [GetBaseString r.Environment] else [], g)
  | "location" =>
    (if r.Location.valueString.length > 0 then [GetBaseString r.Location] else [], g)
  | "hash" =>
    if !r.HashLength.isNull then
      let hashLength := r.HashLength.valueInt
      if hashLength > 0 then
        let h := Hash g hashLength.toNat r.RandomSeed.valueInt
        ([h.1], h.2)
      else ([], g)
    else ([], g)
  | _ => ([], g)

/-- Translation of `nameBuilder.buildNameComponents`: iterates the resolved
precedence tokens in order, collecting components, and joins them with
the resolved separator. -/
def buildNameComponents (g : Rand) (typeSchema : NamingSchema) (r : buildNameResultModel)
    (name : TFString) : TFString × Rand :=
  let folded :=
    (r.NamePrecedence.elements).foldl
      (fun acc tok =>
        let p := componentsForToken acc.2 typeSchema r name tok
        (acc.1 ++ p.1, p.2))
      (([] : List String), g)
  (.value (stringsJoin folded.1 (r.Separator.valueString)), folded.2)

/-- Translation of `nameBuilder.applyLowercase`: the name is folded to
lowercase when the schema policy, the base configuration, or the per-call
override asks for it. -/
def applyLowercase (typeSchema : NamingSchema) (model : configurationsModel)
    (settings : BuildNameSettingsModel) (n : TFString) : TFString :=
  if typeSchema.Configuration.UseLowerCase.valueBool
      || model.Configuration.Lowercase.valueBool || settings.Lowercase then
    toLower n
  else n

/-- Translation of `nameBuilder.buildName`: resolves the convention; in
default mode resolves every knob and assembles the components, otherwise
passes the raw candidate name through; both branches then apply the
lowercase fold. Returns the name, the accumulated argument errors, and
the global generator state. -/
def buildName (g : Rand) (model : configurationsModel) (typeSchema : NamingSchema)
    (settings : BuildNameSettingsModel) (name : TFString) :
    TFString × List String × Rand :=
  let convention := SetConvention settings model
  if convention.valueString == "default" then
    let locp := resolveLocation settings model
    let r : buildNameResultModel :=
      { Environment := resolveEnvironment settings model typeSchema,
        Separator := resolveSeparator settings model typeSchema,
        HashLength := resolveHashLength settings model typeSchema,
        RandomSeed := resolveRandomSeed settings model,
        Prefixes := resolvePrefixes settings model,
        Suffixes := resolveSuffixes settings model,
        NamePrecedence := resolveNamePrecedence settings typeSchema,
        Location := locp.1 }
    let built := buildNameComponents g typeSchema r name
    (applyLowercase typeSchema model settings built.1, locp.2, built.2)
  else
    (applyLowercase typeSchema model settings name, [], g)

/-- Single-quote character as a string, used by the literal error messages. -/
def squote : String := String.singleton (Char.ofNat 39)

/-- Literal double-hyphen build error message. -/
def doubleHyphenMessage (name : String) : String :=
  "Invalid name: " ++ squote ++ name ++ squote ++ " contains double hyphens"

/-- Literal too-long build error message. -/
def tooLongMessage (n maxL : Int) : String :=
  "Name has " ++ toString n ++ " characters, but maximum is set to " ++ toString maxL

/-- Literal too-short build error message. -/
def tooShortMessage (n minL : Int) : String :=
  "Name has " ++ toString n ++ " characters, but minimum is set to " ++ toString minL

/-- Translation of the `validationResult` struct of `name_builder.go`. -/
structure validationResult where
  RegexValid : Bool
  LengthValid : Bool
  DoubleHyphensFound : Bool
  Name : String
  NameLength : Int
  ValidationRegex : String
  MaxLength : Int
  MinLength : Int
  DenyDoubleHyphens : Bool
deriving DecidableEq, Repr

/-- Translation of `validateName` of `name_builder.go`: builds the structured
result, compiling the schema regex with `regexp.MustCompile`; `none`
models the MustCompile panic on an invalid pattern. -/
def validateName (name : String) (typeSchema : NamingSchema) : Option validationResult :=
  match compileRegex (GetBaseString typeSchema.ValidationRegex) with
  | none => none
  | some re =>
    some
      { Name := name,
        NameLength := (name.length : Int),
        ValidationRegex := GetBaseString typeSchema.ValidationRegex,
        MaxLength := typeSchema.MaxLength.valueInt,
        MinLength := typeSchema.MinLength.valueInt,
        DenyDoubleHyphens := typeSchema.Configuration.DenyDoubleHyphens.valueBool,
        RegexValid := rexMatchString re name,
        LengthValid :=
          !(decide ((name.length : Int) > typeSchema.MaxLength.valueInt)
            || decide ((name.length : Int) < typeSchema.MinLength.valueInt)),
        DoubleHyphensFound := stringsContains name "--" }

/-- Translation of the validation error block of `NameFunction.Run`
(`name_function_test.go` lines 186-200): the double-hyphen error is
appended when denied and found; independently of it, the regex error is
appended on a mismatch, and otherwise a length violation is reported,
too-long before too-short. The concatenated function errors are modelled
as the list of messages in emission order. -/
def nameFunctionValidationErrors (v : validationResult) : List String :=
  (if v.DenyDoubleHyphens && v.DoubleHyphensFound then [doubleHyphenMessage v.Name] else [])
  ++ (if !v.RegexValid then ["Name does not match regex"]
      else if !v.LengthValid then
        (if v.NameLength > v.MaxLength then [tooLongMessage v.NameLength v.MaxLength]
         else if v.NameLength < v.MinLength then [tooShortMessage v.NameLength v.MinLength]
         else [])
      else [])

/-- Validation stage of the build operation: `validateName` followed by the
error block of `NameFunction.Run`; `none` models the MustCompile panic. -/
def nameFunctionValidate (name : String) (typeSchema : NamingSchema) : Option (List String) :=
  (validateName name typeSchema).map nameFunctionValidationErrors

/-- Translation of the earlier `validateResult` function of
`name_function.go` (lines 299-311): compiles the schema regex with
`regexp.MustCompile` (`none` models the panic) and emits the build errors,
regex mismatch first, else too-long, else too-short. -/
def validateResult (result : String) (typeSchema : NamingSchema) : Option (List String) :=
  match compileRegex (GetBaseString typeSchema.ValidationRegex) with
  | none => none
  | some re =>
    some
      (if !(rexMatchString re result) then ["Name does not match regex"]
       else if (result.length : Int) > typeSchema.MaxLength.valueInt then
         [tooLongMessage (result.length : Int) typeSchema.MaxLength.valueInt]
       else if (result.length : Int) < typeSchema.MinLength.valueInt then
         [tooShortMessage (result.length : Int) typeSchema.MinLength.valueInt]
       else [])

/-- Validation stage of `ValidateFunction.Run` (`part_004` lines 451-541):
builds the name, derives the structured validation result, and returns it
together with any builder argument errors; `none` models the MustCompile
panic inside `validateName`. The Run function copies the
`validationResult` fields verbatim into the returned object. -/
def ValidateFunctionRun (g : Rand) (model : configurationsModel) (typeSchema : NamingSchema)
    (settings : BuildNameSettingsModel) (name : TFString) :
    Option (validationResult × List String) :=
  let built := buildName g model typeSchema settings name
  let resultNameStr := GetBaseString built.1
  (validateName resultNameStr typeSchema).map (fun v => (v, built.2.1))

/-- Translation of the schema lookup of `parseArguments`
(`name_builder.go` lines 156-180): a missing resource-type key yields the
literal argument error listing the available keys in map iteration order
(modelled as association-list order). -/
def parseArgumentsSchemaLookup (schemaMap : List (String × NamingSchema)) (nameType : String) :
    Except String NamingSchema :=
  match lookupAssoc schemaMap nameType with
  | some ts => .ok ts
  | none =>
    .error ("resource type " ++ squote ++ nameType ++ squote
      ++ " not found in schema. Available resource types: "
      ++ stringsJoin (schemaMap.map (fun p => p.1)) ", ")

/-- Translation of `schema.LocationsMapSchema` (a Go string map), modelled as
an association list in iteration order. -/
abbrev LocationsMapSchema : Type := List (String × String)

/-- Translation of `ApplyAliases` of `location_fetcher.go`: with a non-empty
alias table, every location key present in the table has its value
replaced by the alias; other entries pass through; an empty table returns
the input map unchanged. -/
def ApplyAliases (locations : LocationsMapSchema) (aliases : List (String × String)) :
    LocationsMapSchema :=
  if aliases.length == 0 then locations
  else
    locations.map (fun kv =>
      match lookupAssoc aliases kv.1 with
      | some al => (kv.1, al)
      | none => kv)

/-- Translation of the `azureLocationCache` cache-file payload; the map is
optional to mirror a JSON-decoded nil map, and the timestamp is in
nanoseconds as in Go `time`. -/
structure azureLocationCache where
  Locations : Option LocationsMapSchema
  Timestamp : Int

/-- Translation of `AzureLocationFetcher` (the remote backend): only the
cache TTL (a Go `time.Duration` in nanoseconds) is relevant here. -/
structure AzureLocationFetcher where
  cacheTTL : Int

/-- Translation of `NewAzureLocationFetcher`: the default TTL is 24 hours. -/
def NewAzureLocationFetcher : AzureLocationFetcher :=
  { cacheTTL := 24 * 3600 * 1000000000 }

/-- Translation of `WithCacheTTL`. -/
def WithCacheTTL (_f : AzureLocationFetcher) (ttl : Int) : AzureLocationFetcher :=
  { cacheTTL := ttl }

/-- Translation of `AzureLocationFetcher.loadFromCache`: `readResult` models
the combined `os.ReadFile` plus `json.Unmarshal` outcome (`none` is a
read or decode failure), `now` models `time.Now`, and a stored timestamp
older than the TTL yields the literal `cache expired` failure. -/
def loadFromCache (f : AzureLocationFetcher) (readResult : Option azureLocationCache)
    (now : Int) : Except String (Option LocationsMapSchema) :=
  match readResult with
  | none => .error "read or unmarshal failure"
  | some cache =>
    if now - cache.Timestamp > f.cacheTTL then .error "cache expired"
    else .ok cache.Locations

/-- Translation of `AzureLocationFetcher.Fetch`: a usable cache hit is
returned as-is; otherwise the live API result (`api` models client
creation plus `GetLocationsMap`) is used, and on success the cache file
is overwritten when the write succeeds (`writeOk`); a failed write is
logged and ignored. Returns the fetch outcome and the cache-file content
after the call. -/
def Fetch (f : AzureLocationFetcher) (readResult : Option azureLocationCache) (now : Int)
    (api : Except String LocationsMapSchema) (writeOk : Bool) :
    Except String LocationsMapSchema × Option azureLocationCache :=
  match loadFromCache f readResult now with
  | .ok (some cached) => (.ok cached, readResult)
  | _ =>
    match api with
    | .error e => (.error ("failed to fetch Azure locations: " ++ e), readResult)
    | .ok m =>
      (.ok m, if writeOk then some { Locations := some m, Timestamp := now } else readResult)

/-- The build error list exactly as the specification words it: a strict
priority chain in which a double-hyphen violation suppresses the regex
check. Written from the claim, not from the code, to compare the two. -/
def claimedBuildErrors (v : validationResult) : List String :=
  if v.DenyDoubleHyphens && v.DoubleHyphensFound then [doubleHyphenMessage v.Name]
  else if !v.RegexValid then ["Name does not match regex"]
  else if v.NameLength > v.MaxLength then [tooLongMessage v.NameLength v.MaxLength]
  else if v.NameLength < v.MinLength then [tooShortMessage v.NameLength v.MinLength]
  else []

/-- Test fixture: the resource-group policy used by concrete witnesses. -/
def cfgFix : Configuration :=
  { UseEnvironment := .value false, UseLowerCase := .value false,
    UseSeparator := .value true, DenyDoubleHyphens := .value true,
    NamePrecedence := .null, HashLength := .value 0 }

/-- Test fixture: a resource-group naming schema. -/
def tsFix : NamingSchema :=
  { ResourceType := .value "azurerm_resource_group", Abbreviation := .value "rg",
    MinLength := .value 8, MaxLength := .value 20,
    ValidationRegex := .value "^[a-z0-9-]+$", Configuration := cfgFix }

/-- Test fixture: a base configuration in default-convention mode. -/
def cmFix : configurationModel :=
  { Convention := .value "default", Environment := .value "", Separator := .value "-",
    RandomSeed := .value 1337, HashLength := .value 0, Lowercase := .value false,
    Prefixes := .value [], Suffixes := .value [], Location := .value "westeurope" }

/-- Test fixture: the bundled configuration object. -/
def mFix : configurationsModel :=
  { Configuration := cmFix, Locations := [("westeurope", TFString.value "we")],
    Schema := [("azurerm_resource_group", tsFix)] }

/-- Test fixture: a schema whose validation regex does not compile. -/
def tsBad : NamingSchema :=
  { tsFix with ValidationRegex := .value "(" }

/-- Test fixture: the compiled form of the fixture regex. -/
def reFix : Rex := (compileRegex "^[a-z0-9-]+$").getD .eps

/-- Helper for stating C6: a copy of a policy with the environment gate set. -/
def setUseEnvironment (c : Configuration) (b : Bool) : Configuration :=
  { c with UseEnvironment := .value b }

/-- Helper for stating C6: a copy of a policy with the separator gate set. -/
def setUseSeparator (c : Configuration) (b : Bool) : Configuration :=
  { c with UseSeparator := .value b }

/-- Helper for stating C6: a schema with the environment gate set. -/
def withUseEnvironment (typeSchema : NamingSchema) (b : Bool) : NamingSchema :=
  { typeSchema with Configuration := setUseEnvironment typeSchema.Configuration b }

/-- Helper for stating C6: a schema with the separator gate set. -/
def withUseSeparator (typeSchema : NamingSchema) (b : Bool) : NamingSchema :=
  { typeSchema with Configuration := setUseSeparator typeSchema.Configuration b }

theorem buildChars_length (g : Rand) (cs : List Char) (n : Nat) :
    (buildChars g cs n).1.length = n := by
  induction n generalizing g with
  | zero => rfl
  | succ n ih => simp [buildChars, ih]

theorem buildChars_all (g : Rand) (cs : List Char) (n : Nat)
    (p : Char → Bool) (hcs : cs.all p = true) (hne : cs ≠ []) :
    (buildChars g cs n).1.all p = true := by
  induction n generalizing g with
  | zero => rfl
  | succ n ih =>
    simp only [buildChars, List.all_cons, Bool.and_eq_true]
    refine ⟨?_, ih _⟩
    have hlen : (g.intn cs.length).1 < cs.length := by
      have : 0 < cs.length := List.length_pos.mpr hne
      exact Nat.mod_lt _ this
    rw [List.getD_eq_getElem cs 'A' hlen]
    exact (List.all_eq_true.mp hcs) _ (List.getElem_mem hlen)

/-- C1: for every non-negative length and every seed, `random.Hash` returns a
string of exactly `length` characters, each drawn from a-z; two calls with
identical `(length, seed)` return identical strings regardless of the prior
global generator state (that is, regardless of prior calls); and length 0
returns the empty string. -/
theorem hash_generator_contract (g1 g2 : Rand) (length : Nat) (seed : Int) :
    (Hash g1 length seed).1.length = length
    ∧ (Hash g1 length seed).1 = (Hash g2 length seed).1
    ∧ ((Hash g1 length seed).1.toList.all
        (fun c => decide ('a' ≤ c) && decide (c ≤ 'z'))) = true
    ∧ (Hash g1 0 seed).1 = "" := by
  refine ⟨?_, rfl, ?_, rfl⟩
  · show (String.mk (buildChars (mkRand seed) charset.toList length).1).length = length
    simp [String.length, buildChars_length]
  · show ((buildChars (mkRand seed) charset.toList length).1.all _) = true
    exact buildChars_all _ _ _ _ (by decide) (by decide)

theorem lengthValid_as_bounds (len minL maxL : Int) :
    (!(decide (len > maxL) || decide (len < minL)))
      = decide (minL ≤ len ∧ len ≤ maxL) := by
  by_cases h1 : len > maxL
  all_goals by_cases h2 : len < minL
  all_goals simp [h1, h2]
  all_goals omega

/-- C2: for every name and schema whose regex compiles, the validate
operation raises no error: `validateName` returns the structured result
whose four verdict fields are computed independently (full regex match,
inclusive length bounds, double-hyphen occurrence, deny flag copied from
the schema) together with the name, its length, the regex and the
bounds; and the whole `ValidateFunction.Run` path returns a result for
any settings. -/
theorem validate_returns_structured_result (g : Rand) (model : configurationsModel)
    (typeSchema : NamingSchema) (settings : BuildNameSettingsModel) (nameArg : TFString)
    (name : String) (re : Rex)
    (hc : compileRegex (GetBaseString typeSchema.ValidationRegex) = some re) :
    validateName name typeSchema = some
      { RegexValid := rexMatchString re name,
        LengthValid := decide (typeSchema.MinLength.valueInt ≤ (name.length : Int)
          ∧ (name.length : Int) ≤ typeSchema.MaxLength.valueInt),
        DoubleHyphensFound := stringsContains name "--",
        DenyDoubleHyphens := typeSchema.Configuration.DenyDoubleHyphens.valueBool,
        Name := name,
        NameLength := (name.length : Int),
        ValidationRegex := GetBaseString typeSchema.ValidationRegex,
        MaxLength := typeSchema.MaxLength.valueInt,
        MinLength := typeSchema.MinLength.valueInt }
    ∧ (ValidateFunctionRun g model typeSchema settings nameArg).isSome = true := by
  constructor
  · unfold validateName
    rw [hc]
    simp only [Option.some.injEq]
    congr 1
    exact lengthValid_as_bounds _ _ _
  · unfold ValidateFunctionRun validateName
    rw [hc]
    simp

/-- Witness for C2 at a concrete schema, name and settings. -/
theorem validate_returns_structured_result_witness :
    compileRegex (GetBaseString tsFix.ValidationRegex) = some reFix
    ∧ (validateName "rg-test-we" tsFix = some
        { RegexValid := rexMatchString reFix "rg-test-we",
          LengthValid := decide (tsFix.MinLength.valueInt ≤ (("rg-test-we".length : Nat) : Int)
            ∧ (("rg-test-we".length : Nat) : Int) ≤ tsFix.MaxLength.valueInt),
          DoubleHyphensFound := stringsContains "rg-test-we" "--",
          DenyDoubleHyphens := tsFix.Configuration.DenyDoubleHyphens.valueBool,
          Name := "rg-test-we",
          NameLength := (("rg-test-we".length : Nat) : Int),
          ValidationRegex := GetBaseString tsFix.ValidationRegex,
          MaxLength := tsFix.MaxLength.valueInt,
          MinLength := tsFix.MinLength.valueInt }
      ∧ (ValidateFunctionRun (mkRand 0) mFix tsFix BuildNameSettingsModel.empty
          (.value "test")).isSome = true) :=
  ⟨rfl, validate_returns_structured_result (mkRand 0) mFix tsFix BuildNameSettingsModel.empty
    (.value "test") "rg-test-we" reFix rfl⟩

/-- C10: both the build and the validate validation paths compile the
schema regex with `regexp.MustCompile`, so a schema whose regex does not
compile makes every one of them panic (modelled by `none`) instead of
returning an error value. -/
theorem invalid_regex_panics (name : String) (typeSchema : NamingSchema)
    (h : compileRegex (GetBaseString typeSchema.ValidationRegex) = none) :
    validateName name typeSchema = none
    ∧ nameFunctionValidate name typeSchema = none
    ∧ validateResult name typeSchema = none := by
  refine ⟨?_, ?_, ?_⟩ <;>
    simp [validateName, nameFunctionValidate, validateResult, h]

/-- Witness for C10: an unclosed group is rejected by the compiler, and both
operations panic on it. -/
theorem invalid_regex_panics_witness :
    compileRegex (GetBaseString tsBad.ValidationRegex) = none
    ∧ (validateName "rg-test-we" tsBad = none
      ∧ nameFunctionValidate "rg-test-we" tsBad = none
      ∧ validateResult "rg-test-we" tsBad = none) :=
  ⟨rfl, invalid_regex_panics "rg-test-we" tsBad rfl⟩

/-- C4: whenever the resolved convention is not `default`, the built name is
the raw candidate fragment passed through verbatim, with no component
assembly, no resolver error and no hash-generator invocation (the global
generator state is returned untouched); the only transformation is the
lowercase fold, applied exactly when the schema policy, the base
configuration, or the per-call override asks for it. -/
theorem passthrough_roundtrip (g : Rand) (model : configurationsModel)
    (typeSchema : NamingSchema) (settings : BuildNameSettingsModel) (name : TFString)
    (h : (SetConvention settings model).valueString ≠ "default") :
    buildName g model typeSchema settings name =
      ((if typeSchema.Configuration.UseLowerCase.valueBool
            || model.Configuration.Lowercase.valueBool || settings.Lowercase then
          toLower name
        else name), [], g) := by
  unfold buildName
  rw [if_neg (by simpa using h)]
  rfl

/-- Witness for C4 at a concrete passthrough configuration. -/
theorem passthrough_roundtrip_witness :
    (SetConvention { BuildNameSettingsModel.empty with Convention := "passthrough" }
        mFix).valueString ≠ "default"
    ∧ buildName (mkRand 0) mFix tsFix
        { BuildNameSettingsModel.empty with Convention := "passthrough" }
        (.value "Te--st") =
      ((if tsFix.Configuration.UseLowerCase.valueBool
            || mFix.Configuration.Lowercase.valueBool
            || ({ BuildNameSettingsModel.empty with Convention := "passthrough" }
                : BuildNameSettingsModel).Lowercase then
          toLower (.value "Te--st")
        else (.value "Te--st")), [], mkRand 0) :=
  ⟨by decide, passthrough_roundtrip (mkRand 0) mFix tsFix
    { BuildNameSettingsModel.empty with Convention := "passthrough" }
    (.value "Te--st") (by decide)⟩

/-- C3 counterexample: on a name whose double hyphens are denied and found
and which also misses the regex, the build path emits both the
double-hyphen error and the regex error, while the claimed strict
priority chain would emit the double-hyphen error alone. -/
theorem build_error_priority_counterexample :
    nameFunctionValidate "a--B" tsFix
      = some [doubleHyphenMessage "a--B", "Name does not match regex"]
    ∧ (validateName "a--B" tsFix).map claimedBuildErrors
      = some [doubleHyphenMessage "a--B"]
    ∧ [doubleHyphenMessage "a--B", "Name does not match regex"]
      ≠ [doubleHyphenMessage "a--B"] := by
  refine ⟨by decide, by decide, by decide⟩

/-- C3 amended: the build operation reports validation failure as a hard
error with the literal messages; the double-hyphen violation (only when
denied and found) is emitted first but does not suppress the remaining
checks; the regex mismatch error is emitted independently of it; and only
when the regex matches is a length violation reported, the too-long
message checked before the too-short message. -/
theorem build_error_priority_amended (name : String) (typeSchema : NamingSchema) (re : Rex)
    (hc : compileRegex (GetBaseString typeSchema.ValidationRegex) = some re) :
    nameFunctionValidate name typeSchema = some
      ((if typeSchema.Configuration.DenyDoubleHyphens.valueBool
            && stringsContains name "--" then
          [doubleHyphenMessage name]
        else [])
       ++ (if !(rexMatchString re name) then ["Name does not match regex"]
           else if (name.length : Int) > typeSchema.MaxLength.valueInt then
             [tooLongMessage (name.length : Int) typeSchema.MaxLength.valueInt]
           else if (name.length : Int) < typeSchema.MinLength.valueInt then
             [tooShortMessage (name.length : Int) typeSchema.MinLength.valueInt]
           else [])) := by
  unfold nameFunctionValidate validateName
  rw [hc]
  simp only [Option.map_some]
  unfold nameFunctionValidationErrors
  by_cases hr : rexMatchString re name
  · by_cases ha : (name.length : Int) > typeSchema.MaxLength.valueInt
    · simp [hr, ha]
    · by_cases hb : (name.length : Int) < typeSchema.MinLength.valueInt
      · simp [hr, ha, hb]
      · simp [hr, ha, hb]
  · simp [hr]

/-- Witness for C3 amended at a concrete schema and name. -/
theorem build_error_priority_amended_witness :
    compileRegex (GetBaseString tsFix.ValidationRegex) = some reFix
    ∧ nameFunctionValidate "a--B" tsFix = some
      ((if tsFix.Configuration.DenyDoubleHyphens.valueBool
            && stringsContains "a--B" "--" then
          [doubleHyphenMessage "a--B"]
        else [])
       ++ (if !(rexMatchString reFix "a--B") then ["Name does not match regex"]
           else if (("a--B".length : Nat) : Int) > tsFix.MaxLength.valueInt then
             [tooLongMessage (("a--B".length : Nat) : Int) tsFix.MaxLength.valueInt]
           else if (("a--B".length : Nat) : Int) < tsFix.MinLength.valueInt then
             [tooShortMessage (("a--B".length : Nat) : Int) tsFix.MinLength.valueInt]
           else [])) :=
  ⟨rfl, build_error_priority_amended "a--B" tsFix reFix rfl⟩

/-- C5 evaluation: the schema-not-found error names the requested key and
lists the available keys, as the claim states; but on an empty schema map
the message ends with an empty enumeration and carries no explicit note
that the schema map is empty (the repository test expects the words
`schema appears to be empty` there). -/
theorem schema_not_found_message_eval :
    parseArgumentsSchemaLookup ([] : List (String × NamingSchema)) "azurerm_resource_group"
      = .error ("resource type " ++ squote ++ "azurerm_resource_group" ++ squote
        ++ " not found in schema. Available resource types: ")
    ∧ stringsContains ("resource type " ++ squote ++ "azurerm_resource_group" ++ squote
        ++ " not found in schema. Available resource types: ") "empty" = false
    ∧ parseArgumentsSchemaLookup [("azurerm_resource_group", tsFix)] "invalid_resource_type"
      = .error ("resource type " ++ squote ++ "invalid_resource_type" ++ squote
        ++ " not found in schema. Available resource types: azurerm_resource_group") := by
  refine ⟨by rfl, by decide, by rfl⟩

/-- C6: for the gated fields, a non-empty per-call override always wins; an
empty override falls back to the base value exactly when the schema gate
is on (so an empty override never masks a present base value), and to the
empty string when the gate is off. -/
theorem gated_override_precedence (settings : BuildNameSettingsModel)
    (model : configurationsModel) (typeSchema : NamingSchema) (e sep : String)
    (he : e ≠ "") (hs : sep ≠ "") :
    resolveEnvironment { settings with Environment := e } model typeSchema = .value e
    ∧ resolveSeparator { settings with Separator := sep } model typeSchema = .value sep
    ∧ resolveEnvironment { settings with Environment := "" } model
        (withUseEnvironment typeSchema true) = model.Configuration.Environment
    ∧ resolveEnvironment { settings with Environment := "" } model
        (withUseEnvironment typeSchema false) = .value ""
    ∧ resolveSeparator { settings with Separator := "" } model
        (withUseSeparator typeSchema true) = model.Configuration.Separator
    ∧ resolveSeparator { settings with Separator := "" } model
        (withUseSeparator typeSchema false) = .value "" := by
  refine ⟨?_, ?_, ?_, ?_, ?_, ?_⟩ <;>
    simp [resolveEnvironment, resolveSeparator, withUseEnvironment, withUseSeparator,
      setUseEnvironment, setUseSeparator, TFBool.valueBool, he, hs]

/-- Witness for C6 at concrete overrides and configurations. -/
theorem gated_override_precedence_witness :
    ("tst" : String) ≠ ""
    ∧ ("_" : String) ≠ ""
    ∧ (resolveEnvironment { BuildNameSettingsModel.empty with Environment := "tst" }
          mFix tsFix = .value "tst"
      ∧ resolveSeparator { BuildNameSettingsModel.empty with Separator := "_" }
          mFix tsFix = .value "_"
      ∧ resolveEnvironment { BuildNameSettingsModel.empty with Environment := "" }
          mFix (withUseEnvironment tsFix true) = mFix.Configuration.Environment
      ∧ resolveEnvironment { BuildNameSettingsModel.empty with Environment := "" }
          mFix (withUseEnvironment tsFix false) = .value ""
      ∧ resolveSeparator { BuildNameSettingsModel.empty with Separator := "" }
          mFix (withUseSeparator tsFix true) = mFix.Configuration.Separator
      ∧ resolveSeparator { BuildNameSettingsModel.empty with Separator := "" }
          mFix (withUseSeparator tsFix false) = .value "") :=
  ⟨by decide, by decide,
    gated_override_precedence BuildNameSettingsModel.empty mFix tsFix "tst" "_"
      (by decide) (by decide)⟩

/-- C7 evaluation: with the default precedence, an empty candidate name
fragment is still appended as a component, because the code guards the
`name` (and `abbreviation`) tokens by the length of the quoted `String()`
rendering, which is never zero; the assembled name gains a stray
separator (`rg--we` instead of the non-empty-filtered `rg-we`). -/
theorem component_filter_failing_input_eval :
    (buildName (mkRand 0) mFix tsFix BuildNameSettingsModel.empty (.value "")).1
      = .value "rg--we"
    ∧ TFString.value "rg--we" ≠ TFString.value "rg-we" := by
  refine ⟨by decide, by decide⟩

theorem lookupAssoc_cons {α : Type} (x : String × α) (xs : List (String × α)) (k : String) :
    lookupAssoc (x :: xs) k = if x.1 == k then some x.2 else lookupAssoc xs k := by
  by_cases h : x.1 == k <;> simp [lookupAssoc, List.find?_cons, h]

theorem alias_fun_as_pair (a : List (String × String)) :
    (fun kv : String × String =>
      match lookupAssoc a kv.1 with
      | some al => (kv.1, al)
      | none => kv)
    = (fun kv : String × String => (kv.1, (lookupAssoc a kv.1).getD kv.2)) := by
  funext kv
  cases h : lookupAssoc a kv.1 <;> simp [h]

theorem alias_map_fst (l a : List (String × String)) :
    ((l.map (fun kv : String × String => (kv.1, (lookupAssoc a kv.1).getD kv.2))).map
      Prod.fst) = l.map Prod.fst := by
  induction l with
  | nil => rfl
  | cons hd tl ih => simp [ih]

theorem alias_lookup (l a : List (String × String)) (k : String) :
    lookupAssoc (l.map (fun kv : String × String => (kv.1, (lookupAssoc a kv.1).getD kv.2))) k
      = (lookupAssoc l k).map (fun v => (lookupAssoc a k).getD v) := by
  induction l with
  | nil => rfl
  | cons hd tl ih =>
    rw [List.map_cons, lookupAssoc_cons, lookupAssoc_cons]
    by_cases hk : hd.1 == k
    · have hk2 : hd.1 = k := by simpa using hk
      subst hk2
      simp [hk]
    · simp [hk, ih]

theorem alias_idem_map (l a : List (String × String)) :
    ((l.map (fun kv : String × String => (kv.1, (lookupAssoc a kv.1).getD kv.2))).map
        (fun kv : String × String => (kv.1, (lookupAssoc a kv.1).getD kv.2)))
      = l.map (fun kv : String × String => (kv.1, (lookupAssoc a kv.1).getD kv.2)) := by
  induction l with
  | nil => rfl
  | cons hd tl ih =>
    simp only [List.map_cons, ih]
    cases h : lookupAssoc a hd.1 <;> simp [h]

/-- C8: the alias overlay never adds or removes keys (the key list is
preserved exactly); every key with an alias maps to the alias value while
every other key keeps its original value (expressed through lookup); and
applying the same alias table twice equals applying it once. -/
theorem apply_aliases_spec (l a : List (String × String)) :
    ((ApplyAliases l a).map Prod.fst = l.map Prod.fst)
    ∧ (∀ k, lookupAssoc (ApplyAliases l a) k
        = (lookupAssoc l k).map (fun v => (lookupAssoc a k).getD v))
    ∧ ApplyAliases (ApplyAliases l a) a = ApplyAliases l a := by
  by_cases ha : a.length == 0
  · have ha0 : a = [] := by
      simpa [List.length_eq_zero] using ha
    subst ha0
    refine ⟨rfl, ?_, rfl⟩
    intro k
    have hnil : lookupAssoc ([] : List (String × String)) k = none := rfl
    simp only [ApplyAliases, List.length_nil]
    cases h : lookupAssoc l k <;> simp [h, hnil]
  · simp only [ApplyAliases, ha, Bool.false_eq_true, if_false, alias_fun_as_pair]
    exact ⟨alias_map_fst l a, fun k => alias_lookup l a k, alias_idem_map l a⟩

/-- C9: a cache file whose stored timestamp lies further in the past than
the configured TTL fails to load with the literal `cache expired` failure
and `Fetch` falls through to the live API; a successful live fetch is
returned and, when the write succeeds, overwrites the cache file; a
failed cache write leaves the old file but never fails the fetch; an API
failure is surfaced; and the constructor TTL defaults to 24 hours. -/
theorem azure_cache_expiry_spec (f : AzureLocationFetcher) (c : azureLocationCache)
    (now : Int) (m : LocationsMapSchema) (e : String) (writeOk : Bool)
    (hexp : now - c.Timestamp > f.cacheTTL) :
    loadFromCache f (some c) now = .error "cache expired"
    ∧ (Fetch f (some c) now (.ok m) writeOk).1 = .ok m
    ∧ (Fetch f (some c) now (.ok m) true).2
        = some { Locations := some m, Timestamp := now }
    ∧ (Fetch f (some c) now (.ok m) false).1 = .ok m
    ∧ (Fetch f (some c) now (.ok m) false).2 = some c
    ∧ (Fetch f (some c) now (.error e) writeOk).1
        = .error ("failed to fetch Azure locations: " ++ e)
    ∧ (∀ rd : Option azureLocationCache,
        (∀ m0, loadFromCache f rd now ≠ .ok (some m0)) →
          (Fetch f rd now (.ok m) true).2 = some { Locations := some m, Timestamp := now }
          ∧ (Fetch f rd now (.ok m) false).1 = .ok m)
    ∧ NewAzureLocationFetcher.cacheTTL = 24 * 3600 * 1000000000 := by
  have hl : loadFromCache f (some c) now = .error "cache expired" := by
    simp [loadFromCache, hexp]
  refine ⟨hl, ?_, ?_, ?_, ?_, ?_, ?_, rfl⟩
  case _ => simp [Fetch, hl]
  case _ => simp [Fetch, hl]
  case _ => simp [Fetch, hl]
  case _ => simp [Fetch, hl]
  case _ => simp [Fetch, hl]
  intro rd hmiss
  cases hr : loadFromCache f rd now with
  | error err => constructor <;> simp [Fetch, hr]
  | ok v =>
    cases v with
    | none => constructor <;> simp [Fetch, hr]
    | some m0 => exact absurd hr (hmiss m0)

/-- Witness for C9 at a concrete fetcher, cache file and clock. -/
theorem azure_cache_expiry_spec_witness :
    ((90000000000000 : Int) - 0 > NewAzureLocationFetcher.cacheTTL)
    ∧ (loadFromCache NewAzureLocationFetcher
        (some { Locations := some [], Timestamp := 0 }) 90000000000000
        = .error "cache expired"
      ∧ (Fetch NewAzureLocationFetcher (some { Locations := some [], Timestamp := 0 })
          90000000000000 (.ok [("westeurope", "we")]) true).1 = .ok [("westeurope", "we")]
      ∧ (Fetch NewAzureLocationFetcher (some { Locations := some [], Timestamp := 0 })
          90000000000000 (.ok [("westeurope", "we")]) true).2
          = some { Locations := some [("westeurope", "we")], Timestamp := 90000000000000 }
      ∧ (Fetch NewAzureLocationFetcher (some { Locations := some [], Timestamp := 0 })
          90000000000000 (.ok [("westeurope", "we")]) false).1 = .ok [("westeurope", "we")]
      ∧ (Fetch NewAzureLocationFetcher (some { Locations := some [], Timestamp := 0 })
          90000000000000 (.ok [("westeurope", "we")]) false).2
          = some { Locations := some [], Timestamp := 0 }
      ∧ (Fetch NewAzureLocationFetcher (some { Locations := some [], Timestamp := 0 })
          90000000000000 (.error "boom") true).1
          = .error ("failed to fetch Azure locations: " ++ "boom")
      ∧ (∀ rd : Option azureLocationCache,
          (∀ m0, loadFromCache NewAzureLocationFetcher rd 90000000000000 ≠ .ok (some m0)) →
            (Fetch NewAzureLocationFetcher rd 90000000000000
                (.ok [("westeurope", "we")]) true).2
              = some { Locations := some [("westeurope", "we")], Timestamp := 90000000000000 }
            ∧ (Fetch NewAzureLocationFetcher rd 90000000000000
                (.ok [("westeurope", "we")]) false).1 = .ok [("westeurope", "we")])
      ∧ NewAzureLocationFetcher.cacheTTL = 24 * 3600 * 1000000000) :=
  ⟨by decide, azure_cache_expiry_spec NewAzureLocationFetcher
    { Locations := some [], Timestamp := 0 } 90000000000000 [("westeurope", "we")]
    "boom" true (by decide)⟩

end Standesamt
